import Mathlib

/-!
Shallow embedding of the JSON-over-HTTP fetch demonstrated by
`src/tutorial.ipynb` of NicholasSynovic/python-api-tutorial.

The notebook demonstrates two call paths that fetch a JSON document from a
REST endpoint:

* the urllib path: `urllib.request.urlopen(...)` (optionally on a
  `urllib.request.Request` extended with `add_header`), then
  `resp.read().decode()` and `json.loads(...)`;
* the requests path: `requests.get(url, headers=...)` then `resp.json()`.

The notebook itself contains no original algorithm; it composes library
calls.  The embedding therefore models each library call at the level of its
documented behaviour:

* `urllib.request.urlopen` raises `URLError` when the connection fails and,
  via `HTTPErrorProcessor`, raises `HTTPError` carrying the status code for
  every non-2xx response (redirect following is not modelled: the response
  model carries no `Location` header, and without one the redirect handler
  also raises `HTTPError`);
* `bytes.decode()` decodes strictly as UTF-8 and raises on invalid bytes;
* `json.loads` parses the text as JSON and raises `JSONDecodeError` on
  syntactically invalid input;
* `requests.get` raises `ConnectionError` when the connection fails and
  otherwise returns the `Response` for any completed exchange — it performs
  no status-code check (`raise_for_status` is never called in the notebook);
* `Response.json()` decodes the body and parses it as JSON.

Bytes are modelled as `List Nat`, text as `List Char`, and a server as a
function from the outgoing request to an optional response (`none` models a
connection failure).  An integer JSON literal is modelled as its
arbitrary-precision value, exactly as Python yields an `int`; a literal
with a fractional or exponent part, which Python converts to an IEEE
double, is kept as the exact decimal the double is rounded from (the
rounding itself is floating point and outside the model); the non-standard
constants `NaN`, `Infinity` and `-Infinity`, which `json.loads` accepts by
default, are dedicated constructors.
-/

/-- A parsed JSON document: the tagged variant of §3 of the spec
(null, boolean, number, string, array, object).  Numbers keep Python's
int/float distinction: `num` is an integer literal's arbitrary-precision
value; `fnum m e` is a literal with a fractional or exponent part, held as
the exact decimal `m * 10 ^ e` that Python rounds to an IEEE double (the
rounding is floating point and outside the model); `nan` and `inf` are the
non-standard constants `NaN` and `±Infinity` that `json.loads` accepts by
default. -/
inductive Json where
  | null
  | bool (b : Bool)
  | num (n : Int)
  | fnum (m : Int) (e : Int)
  | nan
  | inf (neg : Bool)
  | str (s : List Char)
  | arr (xs : List Json)
  | obj (kvs : List (List Char × Json))

mutual

/-- Structural equality test for `Json` (the derive handler does not cover
this nested inductive, so the instance is built by hand). -/
def Json.beq : Json → Json → Bool
  | .null, .null => true
  | .bool a, .bool b => a == b
  | .num a, .num b => a == b
  | .fnum a e, .fnum b f => a == b && e == f
  | .nan, .nan => true
  | .inf a, .inf b => a == b
  | .str a, .str b => a == b
  | .arr a, .arr b => Json.beqArr a b
  | .obj a, .obj b => Json.beqObj a b
  | _, _ => false

/-- Element-wise equality test for JSON arrays. -/
def Json.beqArr : List Json → List Json → Bool
  | [], [] => true
  | x :: xs, y :: ys => Json.beq x y && Json.beqArr xs ys
  | _, _ => false

/-- Member-wise equality test for JSON objects. -/
def Json.beqObj : List (List Char × Json) → List (List Char × Json) → Bool
  | [], [] => true
  | (k, v) :: xs, (l, w) :: ys => k == l && Json.beq v w && Json.beqObj xs ys
  | _, _ => false

end

mutual

/-- `Json.beq` decides propositional equality. -/
theorem Json.beq_iff : ∀ a b : Json, Json.beq a b = true ↔ a = b
  | .null, b => by cases b <;> simp [Json.beq]
  | .bool x, b => by cases b <;> simp [Json.beq]
  | .num x, b => by cases b <;> simp [Json.beq]
  | .fnum x e, b => by cases b <;> simp [Json.beq]
  | .nan, b => by cases b <;> simp [Json.beq]
  | .inf x, b => by cases b <;> simp [Json.beq]
  | .str x, b => by cases b <;> simp [Json.beq]
  | .arr xs, b => by
      cases b <;> simp [Json.beq]
      exact Json.beqArr_iff xs _
  | .obj ms, b => by
      cases b <;> simp [Json.beq]
      exact Json.beqObj_iff ms _

/-- `Json.beqArr` decides propositional equality of element lists. -/
theorem Json.beqArr_iff : ∀ xs ys : List Json, Json.beqArr xs ys = true ↔ xs = ys
  | [], ys => by cases ys <;> simp [Json.beqArr]
  | x :: xs, ys => by
      cases ys <;> simp [Json.beqArr]
      rw [Json.beq_iff x _, Json.beqArr_iff xs _]

/-- `Json.beqObj` decides propositional equality of member lists. -/
theorem Json.beqObj_iff : ∀ xs ys : List (List Char × Json),
    Json.beqObj xs ys = true ↔ xs = ys
  | [], ys => by cases ys <;> simp [Json.beqObj]
  | (k, v) :: xs, ys => by
      cases ys with
      | nil => simp [Json.beqObj]
      | cons p ys =>
        obtain ⟨l, w⟩ := p
        simp [Json.beqObj, Bool.and_eq_true, Json.beq_iff v w, Json.beqObj_iff xs ys,
          and_assoc]

end

instance : DecidableEq Json := fun a b => decidable_of_iff _ (Json.beq_iff a b)

/-! ### UTF-8

`bytes.decode()` (with its default arguments) is strict UTF-8 decoding; the
encoder below is the inverse used to describe a server that sends a given
text.  The decoder implements the RFC 3629 byte-range table (continuation
bytes in `80..BF`, the tightened second-byte ranges that exclude overlong
forms and surrogates, lead bytes `C2..F4`). -/

/-- UTF-8 encoding of one Unicode scalar value. -/
def utf8EncodeNat (n : Nat) : List Nat :=
  if n < 0x80 then [n]
  else if n < 0x800 then [0xC0 + n / 0x40, 0x80 + n % 0x40]
  else if n < 0x10000 then
    [0xE0 + n / 0x1000, 0x80 + n / 0x40 % 0x40, 0x80 + n % 0x40]
  else
    [0xF0 + n / 0x40000, 0x80 + n / 0x1000 % 0x40, 0x80 + n / 0x40 % 0x40,
      0x80 + n % 0x40]

/-- UTF-8 encoding of one character. -/
def utf8EncodeChar (c : Char) : List Nat :=
  utf8EncodeNat c.toNat

/-- UTF-8 encoding of a text, character by character. -/
def utf8Encode (cs : List Char) : List Nat :=
  cs.flatMap utf8EncodeChar

/-- Lower bound for the second byte of a three-byte sequence (`E0` forbids
the overlong range below `A0`). -/
def utf8Snd3Lo (b : Nat) : Nat := if b = 0xE0 then 0xA0 else 0x80

/-- Upper bound for the second byte of a three-byte sequence (`ED` forbids
the surrogate range above `9F`). -/
def utf8Snd3Hi (b : Nat) : Nat := if b = 0xED then 0x9F else 0xBF

/-- Lower bound for the second byte of a four-byte sequence (`F0` forbids
the overlong range below `90`). -/
def utf8Snd4Lo (b : Nat) : Nat := if b = 0xF0 then 0x90 else 0x80

/-- Upper bound for the second byte of a four-byte sequence (`F4` forbids
code points above `10FFFF`). -/
def utf8Snd4Hi (b : Nat) : Nat := if b = 0xF4 then 0x8F else 0xBF

/-- The decoding automaton behind `utf8Decode`, one byte per step.  The
first argument is the pending multi-byte sequence, if any: `some (need, acc,
lo, hi)` means `need` continuation bytes are still expected, `acc` holds the
scalar bits gathered so far, and the next byte must lie in `[lo, hi]` (the
tightened range rules out overlong forms and surrogates after an `E0`, `ED`,
`F0` or `F4` lead byte; later continuation bytes use the plain `80..BF`
range). -/
def utf8Go : Option (Nat × Nat × Nat × Nat) → List Nat → Option (List Char)
  | none, [] => some []
  | some _, [] => none
  | none, b :: bs =>
      if b < 0x80 then (Char.ofNat b :: ·) <$> utf8Go none bs
      else if b < 0xC2 then none
      else if b ≤ 0xDF then utf8Go (some (1, b - 0xC0, 0x80, 0xBF)) bs
      else if b ≤ 0xEF then utf8Go (some (2, b - 0xE0, utf8Snd3Lo b, utf8Snd3Hi b)) bs
      else if b ≤ 0xF4 then utf8Go (some (3, b - 0xF0, utf8Snd4Lo b, utf8Snd4Hi b)) bs
      else none
  | some (need, acc, lo, hi), b :: bs =>
      if lo ≤ b ∧ b ≤ hi then
        match need with
        | 0 => none
        | 1 => (Char.ofNat (acc * 0x40 + (b - 0x80)) :: ·) <$> utf8Go none bs
        | need' + 2 => utf8Go (some (need' + 1, acc * 0x40 + (b - 0x80), 0x80, 0xBF)) bs
      else none

/-- Strict UTF-8 decoding of a byte sequence, `none` on any malformed
input.  Models Python's `bytes.decode()` with its default `utf-8`/`strict`
arguments. -/
def utf8Decode (bs : List Nat) : Option (List Char) :=
  utf8Go none bs

/-- One ASCII byte decodes to itself. -/
theorem utf8Go_ascii (b : Nat) (bs : List Nat) (h : b < 0x80) :
    utf8Go none (b :: bs) = (Char.ofNat b :: ·) <$> utf8Go none bs := by
  rw [show utf8Go none (b :: bs) =
      (if b < 0x80 then (Char.ofNat b :: ·) <$> utf8Go none bs
       else if b < 0xC2 then none
       else if b ≤ 0xDF then utf8Go (some (1, b - 0xC0, 0x80, 0xBF)) bs
       else if b ≤ 0xEF then utf8Go (some (2, b - 0xE0, utf8Snd3Lo b, utf8Snd3Hi b)) bs
       else if b ≤ 0xF4 then utf8Go (some (3, b - 0xF0, utf8Snd4Lo b, utf8Snd4Hi b)) bs
       else none) from rfl, if_pos h]

/-- A two-byte lead starts a pending sequence of one continuation byte. -/
theorem utf8Go_lead2 (b : Nat) (bs : List Nat) (h1 : 0xC2 ≤ b) (h2 : b ≤ 0xDF) :
    utf8Go none (b :: bs) = utf8Go (some (1, b - 0xC0, 0x80, 0xBF)) bs := by
  rw [show utf8Go none (b :: bs) =
      (if b < 0x80 then (Char.ofNat b :: ·) <$> utf8Go none bs
       else if b < 0xC2 then none
       else if b ≤ 0xDF then utf8Go (some (1, b - 0xC0, 0x80, 0xBF)) bs
       else if b ≤ 0xEF then utf8Go (some (2, b - 0xE0, utf8Snd3Lo b, utf8Snd3Hi b)) bs
       else if b ≤ 0xF4 then utf8Go (some (3, b - 0xF0, utf8Snd4Lo b, utf8Snd4Hi b)) bs
       else none) from rfl,
    if_neg (by omega), if_neg (by omega), if_pos h2]

/-- A three-byte lead starts a pending sequence of two continuation bytes. -/
theorem utf8Go_lead3 (b : Nat) (bs : List Nat) (h1 : 0xE0 ≤ b) (h2 : b ≤ 0xEF) :
    utf8Go none (b :: bs) = utf8Go (some (2, b - 0xE0, utf8Snd3Lo b, utf8Snd3Hi b)) bs := by
  rw [show utf8Go none (b :: bs) =
      (if b < 0x80 then (Char.ofNat b :: ·) <$> utf8Go none bs
       else if b < 0xC2 then none
       else if b ≤ 0xDF then utf8Go (some (1, b - 0xC0, 0x80, 0xBF)) bs
       else if b ≤ 0xEF then utf8Go (some (2, b - 0xE0, utf8Snd3Lo b, utf8Snd3Hi b)) bs
       else if b ≤ 0xF4 then utf8Go (some (3, b - 0xF0, utf8Snd4Lo b, utf8Snd4Hi b)) bs
       else none) from rfl,
    if_neg (by omega), if_neg (by omega), if_neg (by omega), if_pos h2]

/-- A four-byte lead starts a pending sequence of three continuation bytes. -/
theorem utf8Go_lead4 (b : Nat) (bs : List Nat) (h1 : 0xF0 ≤ b) (h2 : b ≤ 0xF4) :
    utf8Go none (b :: bs) = utf8Go (some (3, b - 0xF0, utf8Snd4Lo b, utf8Snd4Hi b)) bs := by
  rw [show utf8Go none (b :: bs) =
      (if b < 0x80 then (Char.ofNat b :: ·) <$> utf8Go none bs
       else if b < 0xC2 then none
       else if b ≤ 0xDF then utf8Go (some (1, b - 0xC0, 0x80, 0xBF)) bs
       else if b ≤ 0xEF then utf8Go (some (2, b - 0xE0, utf8Snd3Lo b, utf8Snd3Hi b)) bs
       else if b ≤ 0xF4 then utf8Go (some (3, b - 0xF0, utf8Snd4Lo b, utf8Snd4Hi b)) bs
       else none) from rfl,
    if_neg (by omega), if_neg (by omega), if_neg (by omega), if_neg (by omega),
    if_pos h2]

/-- The last continuation byte completes the pending scalar value. -/
theorem utf8Go_last (acc lo hi b : Nat) (bs : List Nat) (h : lo ≤ b ∧ b ≤ hi) :
    utf8Go (some (1, acc, lo, hi)) (b :: bs) =
      (Char.ofNat (acc * 0x40 + (b - 0x80)) :: ·) <$> utf8Go none bs := by
  rw [show utf8Go (some (1, acc, lo, hi)) (b :: bs) =
      (if lo ≤ b ∧ b ≤ hi then
        (Char.ofNat (acc * 0x40 + (b - 0x80)) :: ·) <$> utf8Go none bs
       else none) from rfl, if_pos h]

/-- A middle continuation byte extends the pending scalar value. -/
theorem utf8Go_mid (need acc lo hi b : Nat) (bs : List Nat) (h : lo ≤ b ∧ b ≤ hi) :
    utf8Go (some (need + 2, acc, lo, hi)) (b :: bs) =
      utf8Go (some (need + 1, acc * 0x40 + (b - 0x80), 0x80, 0xBF)) bs := by
  rw [show utf8Go (some (need + 2, acc, lo, hi)) (b :: bs) =
      (if lo ≤ b ∧ b ≤ hi then
        utf8Go (some (need + 1, acc * 0x40 + (b - 0x80), 0x80, 0xBF)) bs
       else none) from rfl, if_pos h]

/-- Decoding inverts the encoder on one valid scalar value, with any byte
suffix. -/
theorem utf8Go_encodeNat (n : Nat)
    (hv : n < 0xD800 ∨ 0xE000 ≤ n ∧ n < 0x110000) (bs : List Nat) :
    utf8Go none (utf8EncodeNat n ++ bs) = (Char.ofNat n :: ·) <$> utf8Go none bs := by
  by_cases h1 : n < 0x80
  · rw [show utf8EncodeNat n = [n] from by rw [utf8EncodeNat, if_pos h1],
      List.cons_append, List.nil_append, utf8Go_ascii n bs h1]
  · by_cases h2 : n < 0x800
    · rw [show utf8EncodeNat n = [0xC0 + n / 0x40, 0x80 + n % 0x40] from by
        rw [utf8EncodeNat, if_neg h1, if_pos h2]]
      rw [List.cons_append, List.cons_append, List.nil_append,
        utf8Go_lead2 _ _ (by omega) (by omega),
        utf8Go_last _ _ _ _ _ ⟨by omega, by omega⟩,
        show (0xC0 + n / 0x40 - 0xC0) * 0x40 + (0x80 + n % 0x40 - 0x80) = n from by omega]
    · by_cases h3 : n < 0x10000
      · rw [show utf8EncodeNat n =
            [0xE0 + n / 0x1000, 0x80 + n / 0x40 % 0x40, 0x80 + n % 0x40] from by
          rw [utf8EncodeNat, if_neg h1, if_neg h2, if_pos h3]]
        rw [List.cons_append, List.cons_append, List.cons_append, List.nil_append,
          utf8Go_lead3 _ _ (by omega) (by omega)]
        rw [utf8Go_mid 0 _ _ _ _ _ ?snd3]
        case snd3 =>
          constructor
          · rw [utf8Snd3Lo]
            split <;> omega
          · rw [utf8Snd3Hi]
            split <;> omega
        rw [utf8Go_last _ _ _ _ _ ⟨by omega, by omega⟩,
          show ((0xE0 + n / 0x1000 - 0xE0) * 0x40 + (0x80 + n / 0x40 % 0x40 - 0x80)) * 0x40 +
            (0x80 + n % 0x40 - 0x80) = n from by omega]
      · have h4 : n < 0x110000 := by omega
        rw [show utf8EncodeNat n =
            [0xF0 + n / 0x40000, 0x80 + n / 0x1000 % 0x40, 0x80 + n / 0x40 % 0x40,
              0x80 + n % 0x40] from by
          rw [utf8EncodeNat, if_neg h1, if_neg h2, if_neg h3]]
        rw [List.cons_append, List.cons_append, List.cons_append, List.cons_append,
          List.nil_append, utf8Go_lead4 _ _ (by omega) (by omega)]
        rw [utf8Go_mid 1 _ _ _ _ _ ?snd4]
        case snd4 =>
          constructor
          · rw [utf8Snd4Lo]
            split <;> omega
          · rw [utf8Snd4Hi]
            split <;> omega
        rw [utf8Go_mid 0 _ _ _ _ _ ⟨by omega, by omega⟩,
          utf8Go_last _ _ _ _ _ ⟨by omega, by omega⟩,
          show (((0xF0 + n / 0x40000 - 0xF0) * 0x40 + (0x80 + n / 0x1000 % 0x40 - 0x80)) * 0x40 +
              (0x80 + n / 0x40 % 0x40 - 0x80)) * 0x40 + (0x80 + n % 0x40 - 0x80) = n from by
            omega]

/-- Decoding inverts the encoder on one character, with any byte suffix. -/
theorem utf8Go_encodeChar (c : Char) (bs : List Nat) :
    utf8Go none (utf8EncodeChar c ++ bs) = (c :: ·) <$> utf8Go none bs := by
  have hv : c.toNat < 0xD800 ∨ 0xE000 ≤ c.toNat ∧ c.toNat < 0x110000 := c.valid
  rw [utf8EncodeChar, utf8Go_encodeNat c.toNat hv bs, Char.ofNat_toNat]

/-- Decoding inverts the encoder: every text round-trips through its UTF-8
encoding. -/
theorem utf8Decode_utf8Encode (cs : List Char) :
    utf8Decode (utf8Encode cs) = some cs := by
  rw [utf8Decode]
  induction cs with
  | nil => rfl
  | cons c cs ih =>
    have henc : utf8Encode (c :: cs) = utf8EncodeChar c ++ utf8Encode cs := by
      simp [utf8Encode]
    rw [henc, utf8Go_encodeChar, ih]
    rfl

/-! ### JSON parsing

A recursive-descent parser over the decoded text, modelling `json.loads`
with its default arguments (and the parse step of `Response.json()`).
Structural recursion is over a fuel counter; the top-level entry points
supply fuel that is ample for any input (each recursive descent consumes at
least one input character per two fuel units spent).

Python's `json.loads` accepts, beyond the grammar of syntactically valid
JSON, the constants `NaN`, `Infinity` and `-Infinity` (its default
`allow_nan` behaviour); the parser takes a flag selecting between the two
acceptance sets, `true` for `json.loads` and `false` for the strict
grammar.  Value representation: an integer literal becomes an
arbitrary-precision integer, exactly as in Python; a literal with a
fractional or exponent part, which Python converts to an IEEE double, is
kept as the exact decimal `mantissa * 10 ^ exponent` that Python would then
round (the rounding itself is floating point and outside the model); the
three constants become dedicated `Json` constructors.  A `\u` escape is
accepted as Python accepts it, with a high/low surrogate escape pair
combined into the one character it encodes; a lone surrogate — which
Python keeps as a bare surrogate code point in the result string, a value a
Lean `Char` cannot hold — is accepted and represented by `U+FFFD`. -/

/-- JSON insignificant whitespace. -/
def isWsChar (c : Char) : Bool :=
  c = ' ' || c = '\t' || c = '\n' || c = '\r'

/-- Drop leading insignificant whitespace. -/
def dropWs : List Char → List Char
  | c :: cs => if isWsChar c then dropWs cs else c :: cs
  | [] => []

/-- ASCII decimal digit test. -/
def isDigitChar (c : Char) : Bool :=
  '0' ≤ c && c ≤ '9'

/-- Numeric value of an ASCII decimal digit. -/
def digitVal (c : Char) : Nat :=
  c.toNat - '0'.toNat

/-- Consume a run of decimal digits, extending the accumulator. -/
def readDigits (acc : Nat) : List Char → Nat × List Char
  | c :: cs => if isDigitChar c then readDigits (acc * 10 + digitVal c) cs else (acc, c :: cs)
  | [] => (acc, [])

/-- Consume a run of decimal digits, extending the accumulator and counting
the digits consumed. -/
def readDigitsCnt (acc cnt : Nat) : List Char → Nat × Nat × List Char
  | c :: cs =>
    if isDigitChar c then readDigitsCnt (acc * 10 + digitVal c) (cnt + 1) cs
    else (acc, cnt, c :: cs)
  | [] => (acc, cnt, [])

/-- Consume the digits of the integer part of a JSON number: a single `0`,
or a nonzero digit followed by any digits (a leading zero before further
digits is a syntax error, as in Python's `json`). -/
def readIntDigits : List Char → Option (Nat × List Char)
  | c :: cs =>
    if isDigitChar c then
      if c = '0' then
        match cs with
        | d :: _ => if isDigitChar d then none else some (0, cs)
        | [] => some (0, [])
      else some (readDigits (digitVal c) cs)
    else none
  | [] => none

/-- Consume an optional fractional part `.digits`, returning its digits as
a value together with their count; `none` when a point is present without a
digit after it. -/
def readFracPart : List Char → Option (Nat × Nat × List Char)
  | '.' :: r =>
    match readDigitsCnt 0 0 r with
    | (_, 0, _) => none
    | (f, k, r2) => some (f, k, r2)
  | cs => some (0, 0, cs)

/-- Consume an optional exponent part `e`/`E` with an optional sign and
digits; `none` when the marker is present without a digit after it.  The
flag records whether an exponent part was present. -/
def readExpPart : List Char → Option (Int × Bool × List Char)
  | c :: r =>
    if c = 'e' || c = 'E' then
      match r with
      | '+' :: r2 =>
        (match readDigitsCnt 0 0 r2 with
         | (_, 0, _) => none
         | (e, _, r3) => some ((e : Int), true, r3))
      | '-' :: r2 =>
        (match readDigitsCnt 0 0 r2 with
         | (_, 0, _) => none
         | (e, _, r3) => some (-(e : Int), true, r3))
      | r2 =>
        (match readDigitsCnt 0 0 r2 with
         | (_, 0, _) => none
         | (e, _, r3) => some ((e : Int), true, r3))
    else some (0, false, c :: r)
  | [] => some (0, false, [])

/-- Parse a JSON number the way `json.loads` does: an integer literal
(optional minus, then a single `0` or a nonzero digit followed by digits)
yields an `Int`, exactly as Python yields an `int`; a literal with a
fractional or exponent part, which Python converts to a float, is kept as
the exact decimal it would be rounded from (see the section comment). -/
def parseNumber : List Char → Option (Json × List Char)
  | '-' :: r => parseNumMag true r
  | cs => parseNumMag false cs
where
  /-- The magnitude after an optional minus sign. -/
  parseNumMag (neg : Bool) (cs1 : List Char) : Option (Json × List Char) :=
  match readIntDigits cs1 with
  | none => none
  | some (i, r1) =>
    match readFracPart r1 with
    | none => none
    | some (f, k, r2) =>
      match readExpPart r2 with
      | none => none
      | some (e, hasExp, r3) =>
        if k = 0 ∧ hasExp = false then
          some (.num (if neg then -(i : Int) else (i : Int)), r3)
        else
          let mag : Nat := i * 10 ^ k + f
          some (.fnum (if neg then -(mag : Int) else (mag : Int)) (e - (k : Int)), r3)

/-- Resolve a single-character backslash escape inside a JSON string
(`\uXXXX` escapes are handled separately in `readStringRest`). -/
def escapeChar : Char → Option Char
  | '"' => some '"'
  | '\\' => some '\\'
  | '/' => some '/'
  | 'b' => some (Char.ofNat 8)
  | 'f' => some (Char.ofNat 12)
  | 'n' => some '\n'
  | 'r' => some '\r'
  | 't' => some '\t'
  | _ => none

/-- Value of one hexadecimal digit, either case (code points `61..66` are
`a..f`, worth code minus `0x57`; `41..46` are `A..F`, worth code minus
`0x37`). -/
def hexDigitVal (c : Char) : Option Nat :=
  let n := c.toNat
  if isDigitChar c then some (digitVal c)
  else if 0x61 ≤ n ∧ n ≤ 0x66 then some (n - 0x57)
  else if 0x41 ≤ n ∧ n ≤ 0x46 then some (n - 0x37)
  else none

/-- Value of the four hex digits of a `\u` escape. -/
def hexQuad (a b c d : Char) : Option Nat :=
  match hexDigitVal a, hexDigitVal b, hexDigitVal c, hexDigitVal d with
  | some x, some y, some z, some w => some (((x * 16 + y) * 16 + z) * 16 + w)
  | _, _, _, _ => none

/-- High-surrogate test for `\u` escape values. -/
def isHiSurrogate (n : Nat) : Bool :=
  0xD800 ≤ n && n ≤ 0xDBFF

/-- Low-surrogate test for `\u` escape values. -/
def isLoSurrogate (n : Nat) : Bool :=
  0xDC00 ≤ n && n ≤ 0xDFFF

/-- Stand-in for a lone surrogate produced by a `\u` escape: Python keeps
the bare surrogate code point in its result string, which a Lean `Char`
cannot represent, so the model substitutes the replacement character. -/
def loneSurrogateChar : Char :=
  Char.ofNat 0xFFFD

/-- One string code point as a character: a lone surrogate becomes
`loneSurrogateChar`, anything else is itself. -/
def toCharOrSub (n : Nat) : Char :=
  if isHiSurrogate n || isLoSurrogate n then loneSurrogateChar else Char.ofNat n

/-- Join adjacent high/low surrogate code points — which can only have come
from adjacent `\u` escapes — into the character the pair encodes, exactly
as Python's string scanner does; a surrogate without its partner stays
alone (as `loneSurrogateChar`, see there). -/
def combineSurrogates : List Nat → List Char
  | [] => []
  | [n] => [toCharOrSub n]
  | n :: m :: rest =>
    if isHiSurrogate n && isLoSurrogate m then
      Char.ofNat (0x10000 + (n - 0xD800) * 0x400 + (m - 0xDC00)) :: combineSurrogates rest
    else
      toCharOrSub n :: combineSurrogates (m :: rest)

/-- Parse the remainder of a JSON string after its opening quote, up to and
including the closing quote, as a sequence of code points (`\uXXXX` escapes
may contribute surrogates; `combineSurrogates` joins them afterwards).  A
raw control character is a syntax error (Python's default strict mode). -/
def readStringRest : List Char → Option (List Nat × List Char)
  | [] => none
  | '"' :: cs => some ([], cs)
  | '\\' :: 'u' :: a :: b :: c :: d :: cs =>
    match hexQuad a b c d with
    | none => none
    | some n =>
      match readStringRest cs with
      | some (s, r) => some (n :: s, r)
      | none => none
  | '\\' :: e :: cs =>
    match escapeChar e with
    | some d =>
      match readStringRest cs with
      | some (s, r) => some (d.toNat :: s, r)
      | none => none
    | none => none
  | c :: cs =>
    if c = '\\' then none
    else if c.toNat < 0x20 then none
    else
      match readStringRest cs with
      | some (s, r) => some (c.toNat :: s, r)
      | none => none

mutual

/-- Parse one JSON value after skipping leading whitespace, returning it
with the unconsumed remainder.  The flag selects the acceptance set: with
`true` the constants `NaN`, `Infinity` and `-Infinity` are accepted, as
`json.loads` accepts them by default; with `false` only syntactically valid
JSON is. -/
def parseValue : Bool → Nat → List Char → Option (Json × List Char)
  | _, 0, _ => none
  | special, fuel + 1, cs =>
    match dropWs cs with
    | 'n' :: 'u' :: 'l' :: 'l' :: r => some (.null, r)
    | 't' :: 'r' :: 'u' :: 'e' :: r => some (.bool true, r)
    | 'f' :: 'a' :: 'l' :: 's' :: 'e' :: r => some (.bool false, r)
    | 'N' :: 'a' :: 'N' :: r =>
      if special then some (.nan, r) else none
    | 'I' :: 'n' :: 'f' :: 'i' :: 'n' :: 'i' :: 't' :: 'y' :: r =>
      if special then some (.inf false, r) else none
    | '-' :: 'I' :: 'n' :: 'f' :: 'i' :: 'n' :: 'i' :: 't' :: 'y' :: r =>
      if special then some (.inf true, r) else none
    | '"' :: r =>
      match readStringRest r with
      | some (s, r2) => some (.str (combineSurrogates s), r2)
      | none => none
    | '[' :: r =>
      match dropWs r with
      | ']' :: r2 => some (.arr [], r2)
      | r2 =>
        match parseItems special fuel r2 with
        | some (xs, r3) => some (.arr xs, r3)
        | none => none
    | '\x7b' :: r =>
      match dropWs r with
      | '\x7d' :: r2 => some (.obj [], r2)
      | r2 =>
        match parsePairs special fuel r2 with
        | some (ms, r3) => some (.obj ms, r3)
        | none => none
    | c :: r =>
      if c = '-' || isDigitChar c then
        match parseNumber (c :: r) with
        | some (v, r2) => some (v, r2)
        | none => none
      else none
    | [] => none

/-- Parse one or more comma-separated array elements and the closing
bracket (the empty array is handled in `parseValue`). -/
def parseItems : Bool → Nat → List Char → Option (List Json × List Char)
  | _, 0, _ => none
  | special, fuel + 1, cs =>
    match parseValue special fuel cs with
    | some (v, r) =>
      match dropWs r with
      | ',' :: r2 =>
        match parseItems special fuel r2 with
        | some (vs, r3) => some (v :: vs, r3)
        | none => none
      | ']' :: r2 => some ([v], r2)
      | _ => none
    | none => none

/-- Parse one or more comma-separated object members and the closing brace
(the empty object is handled in `parseValue`). -/
def parsePairs : Bool → Nat → List Char → Option (List (List Char × Json) × List Char)
  | _, 0, _ => none
  | special, fuel + 1, cs =>
    match dropWs cs with
    | '"' :: r =>
      match readStringRest r with
      | some (k, r1) =>
        match dropWs r1 with
        | ':' :: r2 =>
          match parseValue special fuel r2 with
          | some (v, r3) =>
            match dropWs r3 with
            | ',' :: r4 =>
              match parsePairs special fuel r4 with
              | some (ms, r5) => some ((combineSurrogates k, v) :: ms, r5)
              | none => none
            | '\x7d' :: r4 => some ([(combineSurrogates k, v)], r4)
            | _ => none
          | none => none
        | _ => none
      | none => none
    | _ => none

end

/-- Parse a complete JSON document the way `json.loads` does with its
default arguments: one value — with the `NaN`/`Infinity`/`-Infinity`
constants enabled — and nothing but trailing whitespace after it; `none` is
a `JSONDecodeError`.  The supplied fuel exceeds what any descent over the
input can use, so it never runs out on this entry path. -/
def parseJson (cs : List Char) : Option Json :=
  match parseValue true (2 * cs.length + 2) cs with
  | some (v, r) => if dropWs r = [] then some v else none
  | none => none

/-- The spec's reference notion of a syntactically valid JSON text: the
same grammar, but without the non-standard constants that `json.loads`
additionally accepts.  A text is syntactically valid JSON exactly when this
returns `some`. -/
def strictParseJson (cs : List Char) : Option Json :=
  match parseValue false (2 * cs.length + 2) cs with
  | some (v, r) => if dropWs r = [] then some v else none
  | none => none

/-! ### The HTTP layer and the two notebook call paths

`src/tutorial.ipynb` composes the fetch two ways:

* urllib path (cells 2 and 3):
  `resp = urllib.request.urlopen(req); data = json.loads(resp.read().decode())`
  where `req` is the bare URL in cell 2 and `Request(url)` in cell 3 — the
  `req.add_header(...)` line of cell 3 is commented out, so the executed
  cell sends the request exactly as created;
* requests path (cells 5 and 6):
  `resp = requests.get(url, headers=header); data = resp.json()`.

A server is modelled as a deterministic function from the outgoing request
to an optional response; `none` is a connection failure. -/

/-- An outgoing HTTP GET request: the `urllib.request.Request` object, and
equally the url/headers pair that `requests.get` sends. -/
structure Request where
  url : List Char
  headers : List (List Char × List Char)
deriving DecidableEq

/-- Python's `str.capitalize()` on a header name (ASCII, as HTTP header
names are): the first character upper-cased, every following character
lower-cased. -/
def strCapitalize : List Char → List Char
  | [] => []
  | c :: cs => c.toUpper :: cs.map Char.toLower

/-- Assignment into an ordered association list with Python-dict semantics:
an existing key keeps its position and receives the new value, a fresh key
is appended. -/
def setAssoc : List (List Char × List Char) → List Char → List Char →
    List (List Char × List Char)
  | [], k, v => [(k, v)]
  | (k0, v0) :: rest, k, v =>
    if k0 = k then (k0, v) :: rest
    else (k0, v0) :: setAssoc rest k v

/-- `urllib.request.Request.add_header(key, val)`: it executes
`self.headers[key.capitalize()] = val`, so the header is stored under the
capitalized name, not verbatim.  In the notebook this call appears only in
the commented-out authenticated variant of cell 3; the executed cell passes
the freshly created request to `urlopen` without calling it. -/
def Request.add_header (r : Request) (k v : List Char) : Request :=
  Request.mk r.url (setAssoc r.headers (strCapitalize k) v)

/-- An HTTP response: status code and raw body bytes (`HTTPResponse` on the
urllib path, `Response` on the requests path). -/
structure HttpResponse where
  status : Nat
  body : List Nat
deriving DecidableEq

/-- `HTTPResponse.read()`: the full body as raw bytes. -/
def HttpResponse.read (r : HttpResponse) : List Nat :=
  r.body

/-- The error taxonomy of §7 of the spec: connection failure, non-success
status, invalid text encoding, invalid JSON syntax. -/
inductive FetchError where
  | networkError
  | httpStatusError (code : Nat)
  | decodeError
  | parseError
deriving DecidableEq

/-- A deterministic server: what response, if any, a given outgoing request
receives.  `none` models a connection that cannot be established. -/
abbrev Server := Request → Option HttpResponse

/-- `urllib.request.urlopen`: raises `URLError` on connection failure and,
through the default `HTTPErrorProcessor`, raises `HTTPError` carrying the
status code whenever the response status is outside `200..299` (without a
`Location` header — absent from this response model — the redirect handler
raises too). -/
def urlopen (server : Server) (req : Request) : Except FetchError HttpResponse :=
  match server req with
  | none => .error .networkError
  | some resp =>
    if 200 ≤ resp.status ∧ resp.status < 300 then .ok resp
    else .error (.httpStatusError resp.status)

/-- `bytes.decode()` lifted into the error taxonomy: strict UTF-8, a
`UnicodeDecodeError` becomes `decodeError`. -/
def decodeBody (bs : List Nat) : Except FetchError (List Char) :=
  match utf8Decode bs with
  | some t => .ok t
  | none => .error .decodeError

namespace json

/-- `json.loads`: parse the text as a JSON document, a `JSONDecodeError`
becomes `parseError`. -/
def loads (text : List Char) : Except FetchError Json :=
  match parseJson text with
  | some v => .ok v
  | none => .error .parseError

end json

/-- The urllib call path of the notebook:
`json.loads(urlopen(req).read().decode())` on the request carrying the URL
and the header list that reaches the wire.  The executed cells send no
headers — cell 2 passes the bare URL and cell 3 passes `Request(url)` with
its `add_header` line commented out — so their runs are this function at an
empty header list; the function is stated generically over the header list
sent, the same request the requests path sends.  (The name normalization
`add_header` would apply when attaching a header is modelled and settled
separately, by the theorems on `Request.add_header`.)  The four sequential
stages of §4.1 — connect+send, receive, decode, parse — appear in this
order, and each failure aborts the whole call. -/
def urllibFetchJson (server : Server) (url : List Char)
    (headers : List (List Char × List Char)) : Except FetchError Json :=
  match urlopen server (Request.mk url headers) with
  | .error e => .error e
  | .ok resp =>
    match decodeBody resp.read with
    | .error e => .error e
    | .ok text => json.loads text

/-- Cell 3 of the notebook exactly as executed: `req = Request(url)` — the
`req.add_header(...)` line is a comment — then `urlopen(req)` and
`json.loads(resp.read().decode())`. -/
def urllibCellFetchJson (server : Server) (url : List Char) : Except FetchError Json :=
  match urlopen server (Request.mk url []) with
  | .error e => .error e
  | .ok resp =>
    match decodeBody resp.read with
    | .error e => .error e
    | .ok text => json.loads text

namespace requests

/-- `requests.get(url, headers=...)`: raises `ConnectionError` when the
connection fails, and otherwise returns the `Response` of any completed
exchange — the status code is not inspected (the notebook never calls
`raise_for_status`). -/
def get (server : Server) (url : List Char)
    (headers : List (List Char × List Char)) : Except FetchError HttpResponse :=
  match server (Request.mk url headers) with
  | none => .error .networkError
  | some resp => .ok resp

end requests

/-- Modelled from the spec: `Response.json()` — the requests library is not
part of this repository, so its body-to-value step is taken from §4.1 of
the spec: decode the body bytes as UTF-8 text, then parse the text as
JSON. -/
def HttpResponse.json (resp : HttpResponse) : Except FetchError Json :=
  match decodeBody resp.body with
  | .error e => .error e
  | .ok text => json.loads text

/-- The requests call path of the notebook:
`requests.get(url, headers=header).json()`. -/
def requestsFetchJson (server : Server) (url : List Char)
    (headers : List (List Char × List Char)) : Except FetchError Json :=
  match requests.get server url headers with
  | .error e => .error e
  | .ok resp => resp.json

/-- The requests call path together with the caller's header dictionary as
it stands when the call returns.  `requests.get` merges the supplied
mapping into the fresh `Request` it sends and contains no assignment to the
caller's dictionary, so the state threads through unchanged on every path;
the pair makes that frame explicit. -/
def requestsFetchJsonCall (server : Server) (url : List Char)
    (headers : List (List Char × List Char)) :
    Except FetchError Json × List (List Char × List Char) :=
  (requestsFetchJson server url headers, headers)

/-- The assigned pair is present in the list after a `setAssoc`
assignment. -/
theorem setAssoc_mem (hs : List (List Char × List Char)) (k v : List Char) :
    (k, v) ∈ setAssoc hs k v := by
  induction hs with
  | nil => simp [setAssoc]
  | cons kv rest ih =>
    obtain ⟨k0, v0⟩ := kv
    simp only [setAssoc]
    by_cases h : k0 = k
    · rw [if_pos h, h]
      exact List.mem_cons_self _ _
    · rw [if_neg h]
      exact List.mem_cons_of_mem _ ih

/-- The urllib path, written against the response the server actually
returns: connection failure, status failure, or decode-and-parse of the
body. -/
theorem urllibFetchJson_cases (server : Server) (url : List Char)
    (headers : List (List Char × List Char)) :
    urllibFetchJson server url headers =
      match server (Request.mk url headers) with
      | none => .error .networkError
      | some resp =>
        if 200 ≤ resp.status ∧ resp.status < 300 then resp.json
        else .error (.httpStatusError resp.status) := by
  rw [urllibFetchJson, urlopen]
  cases server (Request.mk url headers) with
  | none => rfl
  | some resp =>
    dsimp only
    by_cases h2 : 200 ≤ resp.status ∧ resp.status < 300
    · rw [if_pos h2, if_pos h2]
      rfl
    · rw [if_neg h2, if_neg h2]

/-- The requests path, written against the response the server actually
returns: connection failure, or decode-and-parse of the body with no status
check. -/
theorem requestsFetchJson_cases (server : Server) (url : List Char)
    (headers : List (List Char × List Char)) :
    requestsFetchJson server url headers =
      match server (Request.mk url headers) with
      | none => .error .networkError
      | some resp => resp.json := by
  rw [requestsFetchJson, requests.get]
  cases server (Request.mk url headers) with
  | none => rfl
  | some resp => rfl

/-- On a body that is the UTF-8 encoding of a text, `Response.json` (and
the decode-then-parse tail of the urllib path, which is the same function)
returns exactly the reference parse of that text. -/
theorem json_of_encoded_body (status : Nat) (T : List Char) :
    (HttpResponse.mk status (utf8Encode T)).json = json.loads T := by
  rw [HttpResponse.json, decodeBody]
  rw [show utf8Decode (utf8Encode T) = some T from utf8Decode_utf8Encode T]

deriving instance DecidableEq for Except

/-! ### Concrete scenarios

Mock data for the scenario-style statements: a stand-in endpoint URL, the
spec's §8 community-profile document, and the §8 `404 Not Found`
document. -/

/-- A mock endpoint URL standing in for the community-profile endpoint the
notebook queries. -/
def mockUrl : List Char :=
  "https://api.example.test/repos/numpy/numpy/community/profile".toList

/-- The §8 scenario document `{"health_percentage": 100, "description": "x"}`. -/
def profileText : List Char :=
  "\x7b\"health_percentage\": 100, \"description\": \"x\"\x7d".toList

/-- The reference parse of `profileText`. -/
def profileJson : Json :=
  Json.obj [("health_percentage".toList, Json.num 100),
    ("description".toList, Json.str "x".toList)]

/-- The §8 scenario body `{"message":"Not Found"}`. -/
def notFoundText : List Char :=
  "\x7b\"message\":\"Not Found\"\x7d".toList

/-- The reference parse of `notFoundText`. -/
def notFoundJson : Json :=
  Json.obj [("message".toList, Json.str "Not Found".toList)]

/-- A mock server answering every request with status 200 and the
community-profile document. -/
def server200 : Server :=
  fun _ => some (HttpResponse.mk 200 (utf8Encode profileText))

/-- A mock server answering every request with status 404 and the
`Not Found` document. -/
def server404 : Server :=
  fun _ => some (HttpResponse.mk 404 (utf8Encode notFoundText))

/-! ### The claims -/

/-- C1: for every valid JSON text `T` (one the reference parser `parseJson`
accepts, with value `v`), a fetch against a server that returns the UTF-8
encoding of `T` verbatim with status 200 yields exactly `v` — the
read-body, decode-as-UTF-8, parse-as-JSON composition equals the reference
parse, on both notebook call paths. -/
theorem fetchJson_ok_on_valid_json (server : Server) (url : List Char)
    (headers : List (List Char × List Char)) (T : List Char) (v : Json)
    (hserver : server (Request.mk url headers) = some (HttpResponse.mk 200 (utf8Encode T)))
    (href : parseJson T = some v) :
    urllibFetchJson server url headers = .ok v ∧
      requestsFetchJson server url headers = .ok v := by
  have hj : (HttpResponse.mk 200 (utf8Encode T)).json = .ok v := by
    rw [json_of_encoded_body, json.loads, href]
  constructor
  · rw [urllibFetchJson_cases, hserver]
    dsimp only
    rw [if_pos (by omega), hj]
  · rw [requestsFetchJson_cases, hserver]
    dsimp only
    exact hj

/-- C1 witness: the §8 community-profile scenario, on both call paths. -/
theorem fetchJson_ok_on_valid_json_witness :
    urllibFetchJson server200 mockUrl [] = .ok profileJson ∧
      requestsFetchJson server200 mockUrl [] = .ok profileJson :=
  fetchJson_ok_on_valid_json server200 mockUrl [] profileText profileJson rfl (by decide)

/-- C2 counterexample: against the §8 mock endpoint returning status 404
with body `{"message":"Not Found"}`, the requests call path of the notebook
does not fail with `HttpStatusError(404)` — `requests.get` performs no
status check, so the call proceeds to decode and parse the body and
returns its parse. -/
theorem requests_fetch_404_returns_parsed_body :
    requestsFetchJson server404 mockUrl [] = .ok notFoundJson ∧
      requestsFetchJson server404 mockUrl [] ≠ .error (.httpStatusError 404) := by
  constructor
  · decide
  · decide

/-- C2 (amended): for every non-2xx response, the urllib call path fails
with `HttpStatusError` carrying the exact status code returned, without
decoding or parsing the body; the requests call path as written checks no
status and proceeds to decode and parse the body. -/
theorem urllib_non2xx_fails_with_status (server : Server) (url : List Char)
    (headers : List (List Char × List Char)) (resp : HttpResponse)
    (hserver : server (Request.mk url headers) = some resp)
    (hcode : resp.status < 200 ∨ 300 ≤ resp.status) :
    urllibFetchJson server url headers = .error (.httpStatusError resp.status) ∧
      requestsFetchJson server url headers = resp.json := by
  constructor
  · rw [urllibFetchJson_cases, hserver]
    dsimp only
    rw [if_neg (by omega)]
  · rw [requestsFetchJson_cases, hserver]

/-- C2 witness: the §8 `404 Not Found` scenario. -/
theorem urllib_non2xx_fails_with_status_witness :
    urllibFetchJson server404 mockUrl [] = .error (.httpStatusError 404) ∧
      requestsFetchJson server404 mockUrl [] =
        (HttpResponse.mk 404 (utf8Encode notFoundText)).json :=
  urllib_non2xx_fails_with_status server404 mockUrl []
    (HttpResponse.mk 404 (utf8Encode notFoundText)) rfl (by decide)

/-- C3 counterexample: on the 404 mock endpoint the two call paths
disagree — the urllib path fails with `HttpStatusError(404)` while the
requests path returns the parsed body. -/
theorem call_paths_differ_on_404 :
    urllibFetchJson server404 mockUrl [] ≠ requestsFetchJson server404 mockUrl [] := by
  decide

/-- C3 (amended): the two call paths produce identical observable results
whenever the server's answer to the outgoing request is a 2xx response or a
connection failure; they differ exactly in the non-2xx case, where the
urllib path fails with `HttpStatusError` and the requests path decodes and
parses the body. -/
theorem call_paths_agree_without_http_error (server : Server) (url : List Char)
    (headers : List (List Char × List Char))
    (h2xx : ∀ resp, server (Request.mk url headers) = some resp →
      200 ≤ resp.status ∧ resp.status < 300) :
    urllibFetchJson server url headers = requestsFetchJson server url headers := by
  rw [urllibFetchJson_cases, requestsFetchJson_cases]
  cases hs : server (Request.mk url headers) with
  | none => rfl
  | some resp =>
    dsimp only
    rw [if_pos (h2xx resp hs)]

/-- C3 witness: the call paths agree on the 200 community-profile mock
server. -/
theorem call_paths_agree_without_http_error_witness :
    urllibFetchJson server200 mockUrl [] = requestsFetchJson server200 mockUrl [] :=
  call_paths_agree_without_http_error server200 mockUrl []
    (by
      intro resp h
      injection h with h2
      subst h2
      exact ⟨by decide, by decide⟩)

/-- A mock server answering every request with status 200 and a body that
is not valid UTF-8 (a lone `FF` byte). -/
def serverBadBytes : Server :=
  fun _ => some (HttpResponse.mk 200 [0xFF])

/-- A mock server answering every request with status 200 and a truncated
JSON object as the body. -/
def serverTruncated : Server :=
  fun _ => some (HttpResponse.mk 200 (utf8Encode "\x7b\"a\":".toList))

/-- C4: for every 2xx response whose body bytes are not valid UTF-8, both
call paths fail with `DecodeError`; in the four-stage pipeline the decode
stage strictly precedes the parse stage, so the failure is `decodeError`
and no JSON parsing is reached (`json.loads` runs only in the `.ok` branch
of `decodeBody`). -/
theorem fetchJson_decodeError_on_invalid_utf8 (server : Server) (url : List Char)
    (headers : List (List Char × List Char)) (resp : HttpResponse)
    (hserver : server (Request.mk url headers) = some resp)
    (h2xx : 200 ≤ resp.status ∧ resp.status < 300)
    (hbad : utf8Decode resp.body = none) :
    urllibFetchJson server url headers = .error .decodeError ∧
      requestsFetchJson server url headers = .error .decodeError := by
  have hj : resp.json = .error .decodeError := by
    rw [HttpResponse.json, decodeBody, hbad]
  constructor
  · rw [urllibFetchJson_cases, hserver]
    dsimp only
    rw [if_pos h2xx, hj]
  · rw [requestsFetchJson_cases, hserver]
    dsimp only
    exact hj

/-- C4 witness: a 200 response whose body is the single byte `FF`. -/
theorem fetchJson_decodeError_on_invalid_utf8_witness :
    urllibFetchJson serverBadBytes mockUrl [] = .error .decodeError ∧
      requestsFetchJson serverBadBytes mockUrl [] = .error .decodeError :=
  fetchJson_decodeError_on_invalid_utf8 serverBadBytes mockUrl []
    (HttpResponse.mk 200 [0xFF]) rfl (by decide) (by decide)

/-- A mock server answering every request with status 200 and the body
`NaN` — a text that is not syntactically valid JSON but that `json.loads`
accepts by default. -/
def serverNaN : Server :=
  fun _ => some (HttpResponse.mk 200 (utf8Encode "NaN".toList))

/-- C5 counterexample: the body `NaN` decodes to a text that is not
syntactically valid JSON (`strictParseJson` rejects it), yet the fetch does
not fail with `ParseError`: `json.loads` accepts the non-standard constant
by default, so both call paths return its value. -/
theorem fetch_nan_body_returns_value :
    strictParseJson "NaN".toList = none ∧
      urllibFetchJson serverNaN mockUrl [] = .ok Json.nan ∧
      requestsFetchJson serverNaN mockUrl [] = .ok Json.nan ∧
      urllibFetchJson serverNaN mockUrl [] ≠ .error .parseError := by
  refine ⟨by decide, by decide, by decide, by decide⟩

/-- C5 (amended): for every 2xx response whose body decodes to a text that
`json.loads` rejects (for example a truncated object or an unquoted key),
both call paths fail with `ParseError` and no value or default is
substituted; `json.loads` accepts more than the syntactically valid JSON
texts, however — the constants `NaN`, `Infinity` and `-Infinity` parse to
their float values instead of failing. -/
theorem fetchJson_parseError_on_invalid_json (server : Server) (url : List Char)
    (headers : List (List Char × List Char)) (resp : HttpResponse) (text : List Char)
    (hserver : server (Request.mk url headers) = some resp)
    (h2xx : 200 ≤ resp.status ∧ resp.status < 300)
    (hdec : utf8Decode resp.body = some text)
    (hbad : parseJson text = none) :
    urllibFetchJson server url headers = .error .parseError ∧
      requestsFetchJson server url headers = .error .parseError := by
  have hj : resp.json = .error .parseError := by
    rw [HttpResponse.json, decodeBody, hdec]
    dsimp only
    rw [json.loads, hbad]
  constructor
  · rw [urllibFetchJson_cases, hserver]
    dsimp only
    rw [if_pos h2xx, hj]
  · rw [requestsFetchJson_cases, hserver]
    dsimp only
    exact hj

/-- C5 witness: a 200 response whose body is the truncated object
`{"a":`. -/
theorem fetchJson_parseError_on_invalid_json_witness :
    urllibFetchJson serverTruncated mockUrl [] = .error .parseError ∧
      requestsFetchJson serverTruncated mockUrl [] = .error .parseError :=
  fetchJson_parseError_on_invalid_json serverTruncated mockUrl []
    (HttpResponse.mk 200 (utf8Encode "\x7b\"a\":".toList)) "\x7b\"a\":".toList
    rfl (by decide) (by decide) (by decide)

/-- C6 counterexample: `urllib.request.Request.add_header` does not apply
the supplied header name verbatim — it stores the value under
`key.capitalize()`, so the name `X-API-Key` arrives rewritten to
`X-api-key` and the supplied pair itself is absent from the request. -/
theorem add_header_rewrites_noncanonical_name :
    ((Request.mk mockUrl []).add_header "X-API-Key".toList "k1".toList).headers =
        [("X-api-key".toList, "k1".toList)] ∧
      ("X-API-Key".toList, "k1".toList) ∉
        ((Request.mk mockUrl []).add_header "X-API-Key".toList "k1".toList).headers := by
  refine ⟨by decide, by decide⟩

/-- C6 (amended): on the requests path every supplied header pair reaches
the outgoing GET request verbatim — the request `requests.get` sends
carries the supplied mapping itself; on the urllib path `add_header` stores
each supplied value under the capitalized name (first character upper-cased,
the rest lower-cased), so a pair arrives verbatim there exactly when its
name is already in that capitalized form, as `Authorization` is. -/
theorem headers_applied_by_path (url : List Char)
    (headers : List (List Char × List Char)) (k v : List Char)
    (hmem : (k, v) ∈ headers) :
    (k, v) ∈ (Request.mk url headers).headers ∧
      (∀ r : Request, (strCapitalize k, v) ∈ (r.add_header k v).headers) ∧
      (strCapitalize k = k → ∀ r : Request, (k, v) ∈ (r.add_header k v).headers) := by
  refine ⟨hmem, ?_, ?_⟩
  · intro r
    show (strCapitalize k, v) ∈ setAssoc r.headers (strCapitalize k) v
    exact setAssoc_mem r.headers (strCapitalize k) v
  · intro hfix r
    show (k, v) ∈ setAssoc r.headers (strCapitalize k) v
    rw [hfix]
    exact setAssoc_mem r.headers k v

/-- C6 witness: at `{"Authorization": "token X"}` — a name already in
capitalized form — the pair reaches both outgoing requests verbatim. -/
theorem headers_applied_by_path_witness :
    ("Authorization".toList, "token X".toList) ∈
        (Request.mk mockUrl [("Authorization".toList, "token X".toList)]).headers ∧
      (∀ r : Request,
        (strCapitalize "Authorization".toList, "token X".toList) ∈
          (r.add_header "Authorization".toList ("token X".toList)).headers) ∧
      (strCapitalize "Authorization".toList = "Authorization".toList →
        ∀ r : Request,
          ("Authorization".toList, "token X".toList) ∈
            (r.add_header "Authorization".toList ("token X".toList)).headers) :=
  headers_applied_by_path mockUrl [("Authorization".toList, "token X".toList)]
    "Authorization".toList "token X".toList (by decide)

/-- C8: in the executed notebook code no entity is modified after its
creation and none outlives the call.  In particular the request is not
modified between its creation and the issuing of the GET: the executed
urllib cell passes `Request(url)` to `urlopen` exactly as created — its
`add_header` line is a comment — so the cell's fetch is the pipeline run at
the unmodified created request; and no header attachment could have
happened silently, since applying `add_header` to the created request
provably changes it.  Responses and JSON values are only constructed, never
rebuilt, and every entity is local to the call in this embedding. -/
theorem executed_request_unmodified (server : Server) (url : List Char) :
    urllibCellFetchJson server url = urllibFetchJson server url [] ∧
      ∀ k v : List Char, (Request.mk url []).add_header k v ≠ Request.mk url [] := by
  constructor
  · rfl
  · intro k v h
    have hh := congrArg Request.headers h
    simp [Request.add_header, setAssoc] at hh

/-- C9: the caller's header dictionary holds exactly the same pairs after
the fetch call as before it, on success and on every failure — the call
reads the mapping to build the outgoing request and never writes it. -/
theorem caller_headers_unchanged (server : Server) (url : List Char)
    (headers : List (List Char × List Char)) :
    (requestsFetchJsonCall server url headers).2 = headers :=
  rfl

/-- C10: the fetch pipeline is deterministic in its inputs — two runs with
the same URL and header mapping, against servers that answer the resulting
request with the same response (same status code and body bytes, or the
same connection failure), produce the same outcome on both call paths. -/
theorem fetchJson_deterministic (s1 s2 : Server) (url : List Char)
    (headers : List (List Char × List Char))
    (hsame : s1 (Request.mk url headers) = s2 (Request.mk url headers)) :
    urllibFetchJson s1 url headers = urllibFetchJson s2 url headers ∧
      requestsFetchJson s1 url headers = requestsFetchJson s2 url headers := by
  constructor
  · rw [urllibFetchJson_cases, urllibFetchJson_cases, hsame]
  · rw [requestsFetchJson_cases, requestsFetchJson_cases, hsame]

/-- A second mock 200 community-profile server, distinct from `server200`
as a function (it refuses every other URL) yet agreeing with it on the mock
endpoint. -/
def server200Restricted : Server :=
  fun r =>
    if r.url = mockUrl then some (HttpResponse.mk 200 (utf8Encode profileText))
    else none

/-- C10 witness: two distinct mock servers that give the mock request the
same response yield the same outcome on both call paths. -/
theorem fetchJson_deterministic_witness :
    urllibFetchJson server200 mockUrl [] = urllibFetchJson server200Restricted mockUrl [] ∧
      requestsFetchJson server200 mockUrl [] =
        requestsFetchJson server200Restricted mockUrl [] :=
  fetchJson_deterministic server200 server200Restricted mockUrl [] (by decide)
